import Mathlib

unseal Rat.add Rat.mul Rat.inv Rat.sub Rat.ofScientific

deriving instance DecidableEq for Except

/-!
Verification of the FLOPS benchmark suite runner (`benchmark_runner.py`).

The pipeline is embedded shallowly: numbers parsed from benchmark output are
modelled as exact rationals (`ℚ`), captured text as `List Char`, and the
interaction with the operating system (filesystem checks, subprocess
execution) as explicit input data (`FsEntry`, `RunOutcome`).  Python
exceptions are modelled with `Except`.
-/

namespace BenchRunner

/-- The characters of a string literal, used to state concrete inputs. -/
def str (s : String) : List Char := s.data

/-- Character class of the regex `[\d.]`: an ASCII digit or a dot. -/
def isDigitDot (c : Char) : Bool := c.isDigit || c == '.'

/-- Character class of the regex `\s`, restricted to the ASCII whitespace
characters that can occur in captured benchmark output lines. -/
def isPySpace (c : Char) : Bool :=
  c == ' ' || c == '\t' || c == '\n' || c == '\r' || c == '\x0b' || c == '\x0c'

/-- `startsWithSeq pat l` holds when `pat` is a prefix of `l` (the anchored
part of a regex match attempt at one position). -/
def startsWithSeq : List Char → List Char → Bool
  | [], _ => true
  | _ :: _, [] => false
  | p :: ps, c :: cs => p == c && startsWithSeq ps cs

/-- `occursIn pat l` holds when `pat` occurs as a contiguous subsequence of
`l`. -/
def occursIn (pat : List Char) : List Char → Bool
  | [] => startsWithSeq pat []
  | c :: cs => startsWithSeq pat (c :: cs) || occursIn pat cs

/-- The literal token of the tagged pattern `MFLOPS:\s*([\d.]+)` (line 176). -/
def mflTag : List Char := str ("MFLOPS:")

/-- The literal token of the suffixed pattern `([\d.]+)\s*GFLOPS` (line 181). -/
def gflTag : List Char := str ("GFLOPS")

/-- Model of `re.search(r'MFLOPS:\s*([\d.]+)', line)` (line 176): scan the
positions of the line left to right; at each position the literal tag, then
greedy whitespace, then at least one `[\d.]` character must follow; the
captured group is the maximal `[\d.]` run.  (Backtracking into `\s*` cannot
help since `\s` and `[\d.]` are disjoint.) -/
def mflopsSearch : List Char → Option (List Char)
  | [] => none
  | c :: cs =>
    if startsWithSeq mflTag (c :: cs) then
      if (List.takeWhile isDigitDot
           (List.dropWhile isPySpace (List.drop mflTag.length (c :: cs)))).isEmpty then
        mflopsSearch cs
      else
        some (List.takeWhile isDigitDot
          (List.dropWhile isPySpace (List.drop mflTag.length (c :: cs))))
    else mflopsSearch cs

/-- Model of `re.search(r'([\d.]+)\s*GFLOPS', line)` (line 181): the leftmost
position starting a `[\d.]` run whose maximal extent is followed, after
optional whitespace, by the literal `GFLOPS`.  (The greedy group cannot stop
before the end of the run: the next character would be in `[\d.]`, which is
neither whitespace nor `G`.) -/
def gflopsSearch : List Char → Option (List Char)
  | [] => none
  | c :: cs =>
    if isDigitDot c then
      if startsWithSeq gflTag
          (List.dropWhile isPySpace
            (List.drop (List.takeWhile isDigitDot (c :: cs)).length (c :: cs))) then
        some (List.takeWhile isDigitDot (c :: cs))
      else gflopsSearch cs
    else gflopsSearch cs

/-- Value of a run of decimal digits. -/
def digitsVal (l : List Char) : ℕ := l.foldl (fun a c => 10 * a + (c.toNat - 48)) 0

/-- Model of Python `float()` applied to a `[\d.]+` token: defined exactly
when the token holds at least one digit and at most one dot (otherwise
`float` raises `ValueError`); the value is the exact rational it denotes. -/
def pyFloatQ (tok : List Char) : Option ℚ :=
  if tok.any (fun c => c.isDigit) && (tok.filter (fun c => c == '.')).length ≤ 1 then
    some ((digitsVal (tok.takeWhile (fun c => c != '.')) : ℚ) +
      (digitsVal (tok.drop ((tok.takeWhile (fun c => c != '.')).length + 1)) : ℚ) /
        (10 : ℚ) ^ (tok.drop ((tok.takeWhile (fun c => c != '.')).length + 1)).length)
  else none

/-- The message of the `ValueError` raised by `float()` on a bad token. -/
def floatErrMsg (tok : List Char) : List Char :=
  str ("could not convert string to float: ") ++
    (Char.ofNat 39 :: (tok ++ [Char.ofNat 39]))

/-- Model of `str.split('\n')` (line 174): split on every newline, keeping
empty pieces, so the result is always nonempty. -/
def splitLines : List Char → List (List Char)
  | [] => [[]]
  | c :: rest =>
    if c == '\n' then [] :: splitLines rest
    else
      match splitLines rest with
      | [] => [[c]]
      | l :: ls => (c :: l) :: ls

/-- Convert one regex search result with `float()` (lines 177-178, 182-183):
no match contributes nothing; a match whose token `float()` rejects raises. -/
def convTok : Option (List Char) → Except (List Char) (Option ℚ)
  | none => Except.ok none
  | some t =>
    match pyFloatQ t with
    | some q => Except.ok (some q)
    | none => Except.error (floatErrMsg t)

/-- The parsing loop of lines 174-183: per line, the MFLOPS conversion runs
before the GFLOPS one, and the first `ValueError` aborts the whole loop. -/
def goLines : List (List Char) → Except (List Char) (List ℚ × List ℚ)
  | [] => Except.ok ([], [])
  | l :: ls =>
    match convTok (mflopsSearch l) with
    | Except.error e => Except.error e
    | Except.ok m =>
      match convTok (gflopsSearch l) with
      | Except.error e => Except.error e
      | Except.ok g =>
        match goLines ls with
        | Except.error e => Except.error e
        | Except.ok (mf, gf) => Except.ok (m.toList ++ mf, g.toList ++ gf)

/-- The output parser of `_run_benchmark` (lines 170-183): split captured
stdout into lines and collect the MFLOPS and GFLOPS samples in line order. -/
def parseRun (out : List Char) : Except (List Char) (List ℚ × List ℚ) :=
  goLines (splitLines out)

/-- Python `max` over a nonempty list (`max(values)`), written with the head
as seed; the `[]` case is unreachable behind the code's truthiness guards. -/
def listMax : List ℚ → ℚ
  | [] => 0
  | a :: l => l.foldl max a

/-- Python `min` over a nonempty list (`min(...)`); `[]` unreachable. -/
def listMin : List ℚ → ℚ
  | [] => 0
  | a :: l => l.foldl min a

/-- The possible outcomes of `subprocess.run([executable_path], ...)` at line
160, as seen by `_run_benchmark`'s `try` block: normal completion with an
exit code, captured streams and measured elapsed time; expiry of the
120-second timeout (with whatever partial output existed); or a launch
failure raising some other exception. -/
inductive RunOutcome where
  | completed (returncode : ℤ) (stdoutTxt stderrTxt : List Char) (elapsed : ℚ)
  | timeout (partialOut : List Char)
  | launchFailure (message : List Char)

/-- The dict returned by `_run_benchmark` (lines 156-206): either the
`success: True` dict with output, sample lists, peaks and duration, or a
`success: False` dict with an error message and a duration. -/
inductive BenchResult where
  | ok (output : List Char) (mflops_values gflops_values : List ℚ)
      (max_mflops max_gflops : ℚ) (duration : ℚ)
  | fail (error : List Char) (duration : ℚ)
deriving DecidableEq

/-- `_run_benchmark` (lines 156-206).  Non-zero exit returns the stderr text
with the measured duration (lines 163-168); a parse `ValueError` is caught by
the generic handler (lines 201-206) with duration 0; the peaks use Python's
conditional expressions of lines 190-191; timeout returns the fixed message
and fixed duration 120 (lines 195-200). -/
def run_benchmark : RunOutcome → BenchResult
  | RunOutcome.completed rc out errTxt elapsed =>
    if rc ≠ 0 then BenchResult.fail errTxt elapsed
    else
      match parseRun out with
      | Except.error e => BenchResult.fail e 0
      | Except.ok (mf, gf) =>
        BenchResult.ok out mf gf
          (if ¬ mf.isEmpty then listMax mf else 0)
          (if ¬ gf.isEmpty then listMax gf
           else if ¬ mf.isEmpty then listMax mf / 1000 else 0)
          elapsed
  | RunOutcome.timeout _ =>
    BenchResult.fail (str ("Benchmark timed out after 120 seconds")) 120
  | RunOutcome.launchFailure msg => BenchResult.fail msg 0

/-- One element of `results_data` (lines 347-353). -/
structure Entry where
  name : String
  mflops : ℚ
  gflops : ℚ
  duration : ℚ
  details : List ℚ
deriving DecidableEq

/-- The collection loop of `run_benchmarks` (lines 338-363): successful runs
are appended to `results_data` in processing order; failed runs are printed
and skipped. -/
def collectResults (runs : List (String × RunOutcome)) : List Entry :=
  runs.filterMap (fun p =>
    match run_benchmark p.2 with
    | BenchResult.ok _ mf _ mm mg d => some ⟨p.1, mm, mg, d, mf⟩
    | BenchResult.fail _ _ => none)

/-- Python `str.title()` restricted to ASCII: a letter is uppercased when not
preceded by a letter, lowercased otherwise (line 396 `result["name"].title()`). -/
def pyTitleAux : Bool → List Char → List Char
  | _, [] => []
  | prevAlpha, c :: cs =>
    (if c.isAlpha then (if prevAlpha then c.toLower else c.toUpper) else c) ::
      pyTitleAux c.isAlpha cs

/-- Python `str.title()` on a string. -/
def pyTitle (s : String) : String := (pyTitleAux false s.data).asString

/-- Round a rational to the nearest integer, ties to even — the rounding of
CPython's fixed-point formatting on the exact values arising here. -/
def rndHalfEven (q : ℚ) : ℤ :=
  if q - ⌊q⌋ < 1/2 then ⌊q⌋
  else if 1/2 < q - ⌊q⌋ then ⌊q⌋ + 1
  else if ⌊q⌋ % 2 = 0 then ⌊q⌋ else ⌊q⌋ + 1

/-- Decimal digits of a natural number, padded on the left to `w` places. -/
def natDigits (w : ℕ) (n : ℕ) : List Char :=
  List.replicate (w - (Nat.toDigits 10 n).length) '0' ++ Nat.toDigits 10 n

/-- Model of Python's format specifier `:.pf` (fixed-point with `p` decimal
places) on an exact rational, e.g. lines 399, 402, 405-406, 422, 424. -/
def fmtFixed (p : ℕ) (q : ℚ) : String :=
  (if rndHalfEven (q * (10 : ℚ) ^ p) < 0 then "-" else "") ++
    (if p = 0 then (natDigits 0 ((rndHalfEven (q * (10 : ℚ) ^ p)).natAbs)).asString
     else (natDigits 0 ((rndHalfEven (q * (10 : ℚ) ^ p)).natAbs / 10 ^ p)).asString ++
       "." ++ (natDigits p ((rndHalfEven (q * (10 : ℚ) ^ p)).natAbs % 10 ^ p)).asString)

/-- `min(r["mflops"] for r in results_data)` (line 392). -/
def minMflops (rd : List Entry) : ℚ := listMin (rd.map (fun r => r.mflops))

/-- The baseline computation of `_display_results` (lines 385-392): take the
`mflops` of the first entry named `basic`; then, because line 391 tests
Python truthiness (`if not baseline_mflops and results_data:`), both a
missing baseline and a baseline equal to `0.0` fall back to the minimum
`mflops` over all entries. -/
def computeBaseline (rd : List Entry) : Option ℚ :=
  if ((rd.find? (fun r => r.name == "basic")).map (fun r => r.mflops) = none ∨
      (rd.find? (fun r => r.name == "basic")).map (fun r => r.mflops) = some 0) ∧
      rd ≠ [] then
    some (minMflops rd)
  else (rd.find? (fun r => r.name == "basic")).map (fun r => r.mflops)

/-- One rendered row of the results table (lines 394-413). -/
structure Row where
  name : String
  perf : String
  relative : String
  durationTxt : String
deriving DecidableEq

/-- Build one table row (lines 395-413): GFLOPS display with two decimals
when `gflops >= 1.0`, otherwise MFLOPS with zero decimals; the relative
factor divides `mflops` by the baseline when the baseline is truthy and
renders `N/A` otherwise (line 405). -/
def mkRow (baseline : Option ℚ) (r : Entry) : Row :=
  Row.mk (pyTitle r.name)
    (if r.gflops ≥ 1 then fmtFixed 2 r.gflops ++ " GFLOPS"
     else fmtFixed 0 r.mflops ++ " MFLOPS")
    (match baseline with
     | some b => if b ≠ 0 then fmtFixed 1 (r.mflops / b) ++ "x" else "N/A"
     | none => "N/A")
    (fmtFixed 1 r.duration ++ "s")

/-- All table rows in entry order (lines 394-413). -/
def mkRows (baseline : Option ℚ) (rd : List Entry) : List Row :=
  rd.map (mkRow baseline)

/-- Python `max(results_data, key=lambda x: x["mflops"])` (line 418): fold
that replaces the current best only on a strictly larger key, so ties keep
the earliest entry. -/
def pyMaxEntry (a : Entry) (l : List Entry) : Entry :=
  l.foldl (fun acc x => if acc.mflops < x.mflops then x else acc) a

/-- Python division as it appears in an f-string (line 424): dividing by
`None` raises `TypeError`, dividing by zero raises `ZeroDivisionError`. -/
def pyDiv (a : ℚ) : Option ℚ → Except String ℚ
  | none => Except.error ("TypeError")
  | some b => if b = 0 then Except.error ("ZeroDivisionError") else Except.ok (a / b)

/-- The data of the summary panel plus the table (lines 379-428). -/
structure Report where
  rows : List Row
  baseline : Option ℚ
  peakGflops : ℚ
  bestName : String
  speedup : ℚ
deriving DecidableEq

/-- `_display_results` (lines 372-428, rich rendering path): `None` result
(no-op) on an empty `results_data` (lines 374-375); otherwise the table rows,
then the summary panel, whose speed-improvement line divides the best entry's
`mflops` by the baseline without the truthiness guard used for the rows —
modelled by `pyDiv`, which raises out of the whole step when the baseline is
zero. -/
def display_results (rd : List Entry) : Except String (Option Report) :=
  match rd with
  | [] => Except.ok none
  | a :: l =>
    match pyDiv (pyMaxEntry a l).mflops (computeBaseline (a :: l)) with
    | Except.error e => Except.error e
    | Except.ok s =>
      Except.ok (some (Report.mk (mkRows (computeBaseline (a :: l)) (a :: l))
        (computeBaseline (a :: l)) (pyMaxEntry a l).gflops
        (pyTitle (pyMaxEntry a l).name) s))

/-- What the filesystem reports about one expected benchmark path: the three
probes used at lines 111-113 (`path.exists()`, `path.is_file()`,
`os.access(path, os.X_OK)`). -/
structure FsEntry where
  pathOnDisk : Bool
  isFile : Bool
  accessXOk : Bool
deriving DecidableEq

/-- One registry record (lines 110-114). -/
structure BenchDescriptor where
  available : Bool
  path : String
  executable : Bool
deriving DecidableEq

/-- Build one descriptor (lines 108-114): `available` is
`path.exists() and path.is_file()`; `executable` is
`os.access(path, os.X_OK) if path.exists() else False` — the guard tests
bare existence, not the `available` flag. -/
def mkDescriptor (p : String) (fs : FsEntry) : BenchDescriptor :=
  BenchDescriptor.mk (fs.pathOnDisk && fs.isFile) p
    (if fs.pathOnDisk then fs.accessXOk else false)

/-- `_detect_benchmarks` (lines 99-116) over an abstract filesystem: the
fixed names and filenames of lines 102-106, in detection order. -/
def detect_benchmarks (fs : String → FsEntry) : List (String × BenchDescriptor) :=
  [("basic", mkDescriptor ("basic_benchmark") (fs ("basic_benchmark"))),
   ("vectorized", mkDescriptor ("vectorized_benchmark") (fs ("vectorized_benchmark"))),
   ("gpu", mkDescriptor ("gpu_benchmark") (fs ("gpu_benchmark")))]

/-- The runnable subset (lines 316-319): `available and executable`. -/
def availableBenchmarks (ds : List (String × BenchDescriptor)) :
    List (String × BenchDescriptor) :=
  ds.filter (fun p => p.2.available && p.2.executable)

/-- The runner's mutable attribute `self.results`, set to `{}` in
`__init__` (line 46).  No statement of the class ever assigns to it
afterwards. -/
structure RunnerState where
  results : List (String × BenchResult)
deriving DecidableEq

/-- The fresh runner built at line 525 (`BenchmarkRunner()`). -/
def initRunner : RunnerState := RunnerState.mk []

/-- `_display_detailed_output` (lines 462-484): print the captured stdout of
each successful entry of `self.results`. -/
def display_detailed_output (st : RunnerState) : List (String × List Char) :=
  st.results.filterMap (fun p =>
    match p.2 with
    | BenchResult.ok out _ _ _ _ _ => some (p.1, out)
    | BenchResult.fail _ _ => none)

/-- `run_benchmarks` (lines 310-370): run the given benchmarks, collect
`results_data` from the successful ones, display the results, and — if
`verbose` — display the detailed output, which reads `self.results` (never
assigned anywhere in the class, so still as in the input state).  The returned
tuple is (state, results_data, report, detailed output shown). -/
def run_benchmarks (st : RunnerState) (runs : List (String × RunOutcome))
    (verbose : Bool) :
    RunnerState × List Entry × Except String (Option Report) × List (String × List Char) :=
  (st, collectResults runs, display_results (collectResults runs),
    if verbose then display_detailed_output st else [])

/-! ### The end-to-end scenario of §8 of the specification

`basic` and `vectorized` runnable, `gpu` missing; `basic` prints
`MFLOPS: 800`, `vectorized` prints `4.2 GFLOPS`, both exit 0. -/

/-- Scenario filesystem: both CPU benchmark files present, regular and
executable; the gpu file absent. -/
def scenarioFs : String → FsEntry := fun p =>
  if p == "gpu_benchmark" then FsEntry.mk false false false
  else FsEntry.mk true true true

/-- Scenario subprocess behaviour for each runnable benchmark. -/
def scenarioOutcome (name : String) : RunOutcome :=
  if name == "basic" then RunOutcome.completed 0 (str ("MFLOPS: 800")) [] 1
  else if name == "vectorized" then RunOutcome.completed 0 (str ("4.2 GFLOPS")) [] 1
  else RunOutcome.launchFailure []

/-- The scenario's run list: the runnable registry entries, in detection
order, paired with their outcomes. -/
def scenarioRuns : List (String × RunOutcome) :=
  (availableBenchmarks (detect_benchmarks scenarioFs)).map
    (fun p => (p.1, scenarioOutcome p.1))

/-- The report produced by the pipeline on the scenario. -/
def scenarioReport : Except String (Option Report) :=
  display_results (collectResults scenarioRuns)

/-- Baseline of the produced report, if one was produced. -/
def reportBaseline : Except String (Option Report) → Option ℚ
  | Except.ok (some r) => r.baseline
  | _ => none

/-- Best-configuration name of the produced report, if one was produced. -/
def reportBestName : Except String (Option Report) → Option String
  | Except.ok (some r) => some r.bestName
  | _ => none

/-- The (name, performance, relative) cells of the produced table. -/
def reportCells : Except String (Option Report) → List (String × String × String)
  | Except.ok (some r) => r.rows.map (fun w => (w.name, w.perf, w.relative))
  | _ => []

/-! ### Definitions taken from the specification's words, for comparison -/

/-- Modelled from the spec (§3): `peakMflops = max(allMflopsSamples)` or 0 if
none found. -/
def specPeakMflops (mf : List ℚ) : ℚ :=
  if mf ≠ [] then listMax mf else 0

/-- Modelled from the spec (§3): `peakGflops = max(allGflopsSamples)` if any
GFLOPS samples were found, else `max(allMflopsSamples)/1000`, defaulting to 0
when no samples exist. -/
def specPeakGflops (mf gf : List ℚ) : ℚ :=
  if gf ≠ [] then listMax gf
  else if mf ≠ [] then listMax mf / 1000 else 0

/-- Modelled from the spec (§4.5): the baseline is `basic`'s `peakMflops`
when a `basic` measurement is present, otherwise the minimum `peakMflops`
across all successful measurements. -/
def specBaseline (rd : List Entry) : ℚ :=
  match rd.find? (fun r => r.name == "basic") with
  | some e => e.mflops
  | none => minMflops rd

/-- The name of the measurement `_display_results` ranks best, before
title-casing (line 418). -/
def bestOf : List Entry → Option String
  | [] => none
  | a :: l => some (pyMaxEntry a l).name

/-! ### Claims -/

/-- C1 counterexample.  In the §8 end-to-end scenario the code does not
produce the claimed report: `vectorized` prints only a GFLOPS figure, so its
`max_mflops` is 0; its relative factor is rendered `0.0x` (not `5.3x`) and
the best measurement is `basic` (not `vectorized`). -/
theorem scenario_refutes_expected_report :
    bestOf (collectResults scenarioRuns) = some ("basic") ∧
    some ("basic") ≠ some ("vectorized") ∧
    reportCells scenarioReport =
      [("Basic", "800 MFLOPS", "1.0x"), ("Vectorized", "4.20 GFLOPS", "0.0x")] ∧
    ¬ ("Vectorized", "4.20 GFLOPS", "5.3x") ∈ reportCells scenarioReport := by
  decide

/-- C1 (amended).  In the §8 scenario the produced report has baseline
800 MFLOPS and displays `vectorized` as 4.20 GFLOPS, but `vectorized`'s
relative factor is `0.0x` (its `peakMflops` is 0 since its output carries no
`MFLOPS:` tag) and the best measurement is `basic`. -/
theorem scenario_report :
    scenarioReport = Except.ok (some (Report.mk
      [Row.mk ("Basic") ("800 MFLOPS") ("1.0x") ("1.0s"),
       Row.mk ("Vectorized") ("4.20 GFLOPS") ("0.0x") ("1.0s")]
      (some 800) (4/5) ("Basic") 1)) := by
  decide

/-- C2 (code bug).  The output parser is not total: on the partially
malformed output `MFLOPS: .` the regex captures the token `.`, `float('.')`
raises `ValueError`, and the whole (exit-code-0) run is turned into a failed
result instead of two sample sequences. -/
theorem parser_not_total :
    parseRun (str ("MFLOPS: .")) = Except.error (floatErrMsg (str ("."))) ∧
    run_benchmark (RunOutcome.completed 0 (str ("MFLOPS: .")) [] 1) =
      BenchResult.fail (floatErrMsg (str ("."))) 0 := by
  decide

/-- C5.  A run that exceeds the 120-second timeout yields a failed result
with the exact message `Benchmark timed out after 120 seconds` and the fixed
elapsed time 120, regardless of any partial output produced before
termination. -/
theorem timeout_fixed_result (partialOut : List Char) :
    run_benchmark (RunOutcome.timeout partialOut) =
      BenchResult.fail (str ("Benchmark timed out after 120 seconds")) 120 := rfl

/-- Witness for `timeout_fixed_result` at a concrete partial output. -/
theorem timeout_fixed_result_witness :
    run_benchmark (RunOutcome.timeout (str ("MFLOPS: 3"))) =
      BenchResult.fail (str ("Benchmark timed out after 120 seconds")) 120 :=
  timeout_fixed_result (str ("MFLOPS: 3"))

/-- C7 (code bug).  When every successful measurement has `peakMflops = 0`
(here: a successful `basic` run whose output has no recognized tags), each
row's relative factor is indeed rendered `N/A`, but the report step does not
complete: the summary panel's speed-improvement f-string divides by the
falsy baseline without the row guard and raises `ZeroDivisionError`. -/
theorem zero_baseline_crash :
    mkRows (computeBaseline (collectResults
        [("basic", RunOutcome.completed 0 (str ("hello")) [] 1)]))
      (collectResults [("basic", RunOutcome.completed 0 (str ("hello")) [] 1)]) =
      [Row.mk ("Basic") ("0 MFLOPS") ("N/A") ("1.0s")] ∧
    display_results (collectResults
        [("basic", RunOutcome.completed 0 (str ("hello")) [] 1)]) =
      Except.error ("ZeroDivisionError") := by
  decide

/-- C8 (code bug).  With `--verbose` set, the detailed-output step shows
nothing: it iterates `self.results`, which is initialized to `{}` and never
assigned anywhere in the class — even in a run (the §8 scenario) where
benchmarks succeeded and `results_data` is nonempty. -/
theorem verbose_shows_nothing :
    (∀ (runs : List (String × RunOutcome)) (v : Bool),
        (run_benchmarks initRunner runs v).2.2.2 = []) ∧
    (run_benchmarks initRunner scenarioRuns true).2.1 ≠ [] := by
  refine ⟨fun runs v => ?_, by decide⟩
  cases v <;> rfl

/-- C10 counterexample.  If the expected path names a directory with execute
permission (`path.exists()` true, `path.is_file()` false, X_OK true), the
registry reports `exists = false` but `isExecutable = true`: the invariant
`isExecutable ⇒ exists` fails, because the guard at line 113 tests bare
existence rather than the existence-and-regular-file flag. -/
theorem directory_breaks_invariant :
    mkDescriptor ("basic_benchmark") (FsEntry.mk true false true) =
      BenchDescriptor.mk false ("basic_benchmark") true ∧
    ("basic", BenchDescriptor.mk false ("basic_benchmark") true) ∈
      detect_benchmarks (fun _ => FsEntry.mk true false true) ∧
    (BenchDescriptor.mk false ("basic_benchmark") true).executable = true ∧
    (BenchDescriptor.mk false ("basic_benchmark") true).available = false := by
  decide

/-- C10 (amended).  `isExecutable` implies that the path exists on disk
(whenever `path.exists()` is false, `isExecutable` is false); it does not
imply the descriptor's `exists` flag, which additionally requires a regular
file. -/
theorem executable_implies_on_disk (p : String) (fs : FsEntry)
    (h : (mkDescriptor p fs).executable = true) : fs.pathOnDisk = true := by
  cases hd : fs.pathOnDisk
  · simp [mkDescriptor, hd] at h
  · rfl

/-- Witness for `executable_implies_on_disk` at a concrete filesystem
state. -/
theorem executable_implies_on_disk_witness :
    (mkDescriptor ("basic_benchmark") (FsEntry.mk true true true)).executable = true ∧
    (FsEntry.mk true true true).pathOnDisk = true :=
  ⟨by decide, executable_implies_on_disk ("basic_benchmark")
    (FsEntry.mk true true true) (by decide)⟩

/-- C4.  For every successful (exit code 0) run whose output parses, the
produced measurement carries exactly the sample lists and the peaks of the
specification: `peakGflops` is the maximum GFLOPS sample, else the maximum
MFLOPS sample over 1000, else 0; `peakMflops` is the maximum MFLOPS sample
or 0. -/
theorem peaks_match_spec (out errTxt : List Char) (elapsed : ℚ) (mf gf : List ℚ)
    (h : parseRun out = Except.ok (mf, gf)) :
    run_benchmark (RunOutcome.completed 0 out errTxt elapsed) =
      BenchResult.ok out mf gf (specPeakMflops mf) (specPeakGflops mf gf) elapsed := by
  cases mf <;> cases gf <;>
    simp [run_benchmark, h, specPeakMflops, specPeakGflops, List.isEmpty]

/-- Witness for `peaks_match_spec`: with `mflopsSamples = [500, 1500]` and no
GFLOPS samples, `peakGflops = 1.5`. -/
theorem peaks_match_spec_witness :
    parseRun (str ("MFLOPS: 500\nMFLOPS: 1500")) = Except.ok ([500, 1500], []) ∧
    run_benchmark (RunOutcome.completed 0 (str ("MFLOPS: 500\nMFLOPS: 1500")) [] 2) =
      BenchResult.ok (str ("MFLOPS: 500\nMFLOPS: 1500")) [500, 1500] []
        1500 (3/2) 2 :=
  ⟨by decide, by
    rw [peaks_match_spec (str ("MFLOPS: 500\nMFLOPS: 1500")) [] 2 [500, 1500] []
      (by decide)]
    decide⟩

/-- `foldl min` is bounded by its seed. -/
theorem foldl_min_le_seed (l : List ℚ) : ∀ a : ℚ, l.foldl min a ≤ a := by
  induction l with
  | nil => intro a; exact le_refl a
  | cons b t ih =>
    intro a
    exact le_trans (ih (min a b)) (min_le_left a b)

/-- `foldl min` is bounded by every member of the list. -/
theorem foldl_min_le_mem (l : List ℚ) (x : ℚ) :
    ∀ a : ℚ, x ∈ l → l.foldl min a ≤ x := by
  induction l with
  | nil => intro a hx; cases hx
  | cons b t ih =>
    intro a hx
    rcases List.mem_cons.mp hx with rfl | hx
    · exact le_trans (foldl_min_le_seed t (min a x)) (min_le_right a x)
    · exact ih (min a b) hx

/-- A lower bound of the seed and of all members bounds `foldl min`. -/
theorem le_foldl_min (l : List ℚ) (c : ℚ) :
    ∀ a : ℚ, c ≤ a → (∀ x ∈ l, c ≤ x) → c ≤ l.foldl min a := by
  induction l with
  | nil => intro a ha _; exact ha
  | cons b t ih =>
    intro a ha hl
    exact ih (min a b) (le_min ha (hl b (List.mem_cons_self b t)))
      (fun x hx => hl x (List.mem_cons_of_mem b hx))

/-- `listMin` is bounded by every member. -/
theorem listMin_le (l : List ℚ) (x : ℚ) (hx : x ∈ l) : listMin l ≤ x := by
  cases l with
  | nil => cases hx
  | cons a t =>
    rcases List.mem_cons.mp hx with rfl | hx
    · exact foldl_min_le_seed t x
    · exact foldl_min_le_mem t x a hx

/-- A lower bound of all members of a nonempty list bounds `listMin`. -/
theorem le_listMin (l : List ℚ) (c : ℚ) (hne : l ≠ [])
    (h : ∀ x ∈ l, c ≤ x) : c ≤ listMin l := by
  cases l with
  | nil => exact absurd rfl hne
  | cons a t =>
    exact le_foldl_min t c a (h a (List.mem_cons_self a t))
      (fun x hx => h x (List.mem_cons_of_mem a hx))

/-- C3.  Over measurements with nonnegative `peakMflops` (as all parsed
measurements are), the baseline is `None` exactly when there are zero
successful measurements, and otherwise equals the spec's value: `basic`'s
`peakMflops` when a `basic` measurement is present, else the minimum
`peakMflops`.  (When `basic`'s value is `0.0` the code's truthiness test
sends it to the minimum branch, which also yields 0.) -/
theorem baseline_matches_spec (rd : List Entry)
    (hpos : ∀ e ∈ rd, 0 ≤ e.mflops) :
    (computeBaseline rd = none ↔ rd = []) ∧
    (rd ≠ [] → computeBaseline rd = some (specBaseline rd)) := by
  cases hf : rd.find? (fun r => r.name == "basic") with
  | none =>
    cases rd with
    | nil => simp [computeBaseline, specBaseline, hf]
    | cons a l =>
      simp [computeBaseline, specBaseline, hf]
  | some e =>
    have hmem : e ∈ rd := List.mem_of_find?_eq_some hf
    have hne : rd ≠ [] := by
      intro hrd
      rw [hrd] at hf
      simp [List.find?] at hf
    by_cases hz : e.mflops = 0
    · have hmin : minMflops rd = 0 := by
        apply le_antisymm
        · have := listMin_le (rd.map (fun r => r.mflops)) e.mflops
            (List.mem_map_of_mem (fun r => r.mflops) hmem)
          rw [hz] at this
          exact this
        · apply le_listMin
          · simp [hne]
          · intro x hx
            obtain ⟨r, hr, rfl⟩ := List.mem_map.mp hx
            exact hpos r hr
      constructor
      · simp [computeBaseline, hf, hz, hne]
      · intro _
        simp [computeBaseline, specBaseline, hf, hz, hne, hmin]
    · constructor
      · simp [computeBaseline, hf, hz, hne]
      · intro _
        simp [computeBaseline, specBaseline, hf, hz, hne]

/-- Witness for `baseline_matches_spec` at the scenario's `results_data`. -/
theorem baseline_matches_spec_witness :
    (∀ e ∈ [Entry.mk ("basic") 800 (4/5) 1 [800],
            Entry.mk ("vectorized") 0 (21/5) 1 []], 0 ≤ e.mflops) ∧
    computeBaseline [Entry.mk ("basic") 800 (4/5) 1 [800],
      Entry.mk ("vectorized") 0 (21/5) 1 []] = some 800 :=
  ⟨by decide, by
    rw [(baseline_matches_spec
      [Entry.mk ("basic") 800 (4/5) 1 [800], Entry.mk ("vectorized") 0 (21/5) 1 []]
      (by decide)).2 (by decide)]
    decide⟩

/-- Helper for C6: the fold of line 418 returns a member whose key bounds
every entry, and every entry strictly before it has a strictly smaller key. -/
theorem pyMaxEntry_first_max (l : List Entry) : ∀ a : Entry,
    pyMaxEntry a l ∈ a :: l ∧
    (∀ x ∈ a :: l, x.mflops ≤ (pyMaxEntry a l).mflops) ∧
    ∃ l₁ l₂, a :: l = l₁ ++ pyMaxEntry a l :: l₂ ∧
      ∀ x ∈ l₁, x.mflops < (pyMaxEntry a l).mflops := by
  induction l with
  | nil =>
    intro a
    refine ⟨List.mem_cons_self a [], ?_, [], [], rfl, ?_⟩
    · intro x hx
      rcases List.mem_cons.mp hx with rfl | hx
      · exact le_refl _
      · cases hx
    · intro x hx
      cases hx
  | cons b t ih =>
    intro a
    have hstep : pyMaxEntry a (b :: t) =
        pyMaxEntry (if a.mflops < b.mflops then b else a) t := rfl
    obtain ⟨hmem, hbound, l₁, l₂, hdec, hlt⟩ :=
      ih (if a.mflops < b.mflops then b else a)
    have hseed : (if a.mflops < b.mflops then b else a).mflops ≤
        (pyMaxEntry (if a.mflops < b.mflops then b else a) t).mflops :=
      hbound _ (List.mem_cons_self _ t)
    by_cases h : a.mflops < b.mflops
    · rw [if_pos h] at hmem hbound hdec hlt hseed
      rw [hstep, if_pos h]
      refine ⟨List.mem_cons_of_mem a hmem, ?_, a :: l₁, l₂, ?_, ?_⟩
      · intro x hx
        rcases List.mem_cons.mp hx with rfl | hx
        · exact le_trans (le_of_lt h) hseed
        · exact hbound x hx
      · rw [List.cons_append, ← hdec]
      · intro x hx
        rcases List.mem_cons.mp hx with rfl | hx
        · exact lt_of_lt_of_le h hseed
        · exact hlt x hx
    · rw [if_neg h] at hmem hbound hdec hlt hseed
      rw [hstep, if_neg h]
      have hba : b.mflops ≤ a.mflops := le_of_not_lt h
      cases l₁ with
      | nil =>
        obtain ⟨hma, hl₂⟩ : pyMaxEntry a t = a ∧ t = l₂ := by
          rw [List.nil_append] at hdec
          exact ⟨(List.cons.injEq _ _ _ _ ▸ hdec).1.symm,
            (List.cons.injEq _ _ _ _ ▸ hdec).2⟩
        refine ⟨?_, ?_, [], b :: t, ?_, ?_⟩
        · rw [hma]; exact List.mem_cons_self a (b :: t)
        · intro x hx
          rcases List.mem_cons.mp hx with rfl | hx
          · exact hseed
          · rcases List.mem_cons.mp hx with rfl | hx
            · rw [hma]; exact hba
            · exact hbound x (List.mem_cons_of_mem a hx)
        · rw [List.nil_append, hma]
        · intro x hx
          cases hx
      | cons c t₁ =>
        have hca : c = a ∧ t = t₁ ++ pyMaxEntry a t :: l₂ := by
          rw [List.cons_append] at hdec
          exact ⟨((List.cons.injEq _ _ _ _ ▸ hdec).1).symm,
            (List.cons.injEq _ _ _ _ ▸ hdec).2⟩
        have halt : a.mflops < (pyMaxEntry a t).mflops := by
          have := hlt c (List.mem_cons_self c t₁)
          rw [hca.1] at this
          exact this
        refine ⟨?_, ?_, a :: b :: t₁, l₂, ?_, ?_⟩
        · refine List.mem_cons_of_mem a (List.mem_cons_of_mem b ?_)
          nth_rewrite 1 [hca.2]
          exact List.mem_append_right t₁ (List.mem_cons_self _ l₂)
        · intro x hx
          rcases List.mem_cons.mp hx with rfl | hx
          · exact hseed
          · rcases List.mem_cons.mp hx with rfl | hx
            · exact le_trans hba hseed
            · exact hbound x (List.mem_cons_of_mem a hx)
        · rw [List.cons_append, List.cons_append, ← hca.2]
        · intro x hx
          rcases List.mem_cons.mp hx with rfl | hx
          · exact halt
          · rcases List.mem_cons.mp hx with rfl | hx
            · exact lt_of_le_of_lt hba halt
            · exact hlt x (List.mem_cons_of_mem c hx)

/-- C6.  For every nonempty `results_data`, the best measurement selected at
line 418 is a member whose `mflops` is maximal, and ties are broken by first
occurrence in processing order: every earlier entry has strictly smaller
`mflops`. -/
theorem best_is_first_max (a : Entry) (l : List Entry) :
    bestOf (a :: l) = some (pyMaxEntry a l).name ∧
    pyMaxEntry a l ∈ a :: l ∧
    (∀ x ∈ a :: l, x.mflops ≤ (pyMaxEntry a l).mflops) ∧
    ∃ l₁ l₂, a :: l = l₁ ++ pyMaxEntry a l :: l₂ ∧
      ∀ x ∈ l₁, x.mflops < (pyMaxEntry a l).mflops :=
  ⟨rfl, pyMaxEntry_first_max l a⟩

/-- Witness for `best_is_first_max` at two concrete entries: the selected
best is a member of the list. -/
theorem best_is_first_max_witness :
    pyMaxEntry (Entry.mk ("basic") 800 (4/5) 1 [800])
        [Entry.mk ("vectorized") 0 (21/5) 1 []] ∈
      [Entry.mk ("basic") 800 (4/5) 1 [800],
       Entry.mk ("vectorized") 0 (21/5) 1 []] :=
  (best_is_first_max (Entry.mk ("basic") 800 (4/5) 1 [800])
    [Entry.mk ("vectorized") 0 (21/5) 1 []]).2.1

/-- The characters of the MFLOPS tag. -/
theorem mflTag_chars : mflTag = ['M', 'F', 'L', 'O', 'P', 'S', ':'] := rfl

/-- An anchored match only looks at a long enough prefix. -/
theorem startsWithSeq_append_of_le (pat : List Char) :
    ∀ (l r : List Char), pat.length ≤ l.length →
      startsWithSeq pat (l ++ r) = startsWithSeq pat l := by
  induction pat with
  | nil => intro l r _; rfl
  | cons p ps ih =>
    intro l r hlen
    cases l with
    | nil => simp at hlen
    | cons c cs =>
      simp only [List.cons_append, startsWithSeq, List.append_eq]
      rw [ih cs r (Nat.le_of_succ_le_succ hlen)]

/-- `MFLOPS:` cannot match across the boundary of an embedded `MFLOPS:`: no
proper suffix of the tag is a prefix of it. -/
theorem spill (r : List Char) : ∀ (s : List Char), s.length < 7 →
    startsWithSeq mflTag (s ++ mflTag ++ r) = true → s = [] := by
  intro s
  match s with
  | [] => intro _ _; rfl
  | [a] =>
    intro _ h
    simp +decide [mflTag_chars, startsWithSeq] at h
  | [a, b] =>
    intro _ h
    simp +decide [mflTag_chars, startsWithSeq] at h
  | [a, b, c] =>
    intro _ h
    simp +decide [mflTag_chars, startsWithSeq] at h
  | [a, b, c, d] =>
    intro _ h
    simp +decide [mflTag_chars, startsWithSeq] at h
  | [a, b, c, d, e] =>
    intro _ h
    simp +decide [mflTag_chars, startsWithSeq] at h
  | [a, b, c, d, e, f] =>
    intro _ h
    simp +decide [mflTag_chars, startsWithSeq] at h
  | a :: b :: c :: d :: e :: f :: g :: t =>
    intro hlen _
    simp at hlen
    omega

/-- Leading text free of the `MFLOPS:` tag does not change the search
result. -/
theorem mflopsSearch_skip (rest : List Char) : ∀ (pre : List Char),
    occursIn mflTag pre = false →
    mflopsSearch (pre ++ mflTag ++ rest) = mflopsSearch (mflTag ++ rest) := by
  intro pre
  induction pre with
  | nil => intro _; rfl
  | cons c cs ih =>
    intro h
    have hsplit : startsWithSeq mflTag (c :: cs) = false ∧
        occursIn mflTag cs = false := by
      constructor
      · cases hs : startsWithSeq mflTag (c :: cs)
        · rfl
        · rw [occursIn, hs, Bool.true_or] at h
          exact h
      · cases ho : occursIn mflTag cs
        · rfl
        · rw [occursIn, ho, Bool.or_true] at h
          exact h
    have hcur : startsWithSeq mflTag ((c :: cs) ++ mflTag ++ rest) = false := by
      cases hs : startsWithSeq mflTag ((c :: cs) ++ mflTag ++ rest)
      · rfl
      · exfalso
        by_cases hl : 7 ≤ (c :: cs).length
        · rw [List.append_assoc] at hs
          rw [startsWithSeq_append_of_le mflTag (c :: cs) (mflTag ++ rest)
            (by simpa [mflTag_chars] using hl)] at hs
          rw [hsplit.1] at hs
          cases hs
        · have := spill rest (c :: cs) (by omega) hs
          cases this
    have hstep : mflopsSearch ((c :: cs) ++ mflTag ++ rest) =
        mflopsSearch (cs ++ mflTag ++ rest) := by
      show mflopsSearch (c :: (cs ++ mflTag ++ rest)) =
        mflopsSearch (cs ++ mflTag ++ rest)
      rw [mflopsSearch]
      rw [show c :: (cs ++ mflTag ++ rest) = (c :: cs) ++ mflTag ++ rest from rfl]
      rw [hcur]
      simp
    rw [hstep, ih hsplit.2]

/-- At the tag itself the search captures `1234.5`, provided the trailing
text does not extend the numeric run. -/
theorem mflopsSearch_hit (post : List Char) (h2 : post.takeWhile isDigitDot = []) :
    mflopsSearch (mflTag ++ (str (" 1234.5") ++ post)) = some (str ("1234.5")) := by
  rw [show mflTag ++ (str (" 1234.5") ++ post) =
    'M' :: 'F' :: 'L' :: 'O' :: 'P' :: 'S' :: ':' :: ' ' :: '1' :: '2' :: '3' ::
      '4' :: '.' :: '5' :: post from rfl]
  rw [mflopsSearch]
  simp +decide [startsWithSeq, mflTag_chars, List.drop, List.dropWhile,
    List.takeWhile, isPySpace, isDigitDot, h2]

/-- A line whose MFLOPS conversion yields `q` contributes `q` to the MFLOPS
samples of any successful parse of lines containing it. -/
theorem goLines_mem (l : List Char) (q : ℚ)
    (hline : convTok (mflopsSearch l) = Except.ok (some q)) :
    ∀ (ls : List (List Char)) (mf gf : List ℚ), l ∈ ls →
      goLines ls = Except.ok (mf, gf) → q ∈ mf := by
  intro ls
  induction ls with
  | nil => intro mf gf hl _; cases hl
  | cons l0 ls ih =>
    intro mf gf hl hparse
    rw [goLines] at hparse
    cases hm : convTok (mflopsSearch l0) with
    | error e => rw [hm] at hparse; cases hparse
    | ok m =>
      rw [hm] at hparse
      cases hg : convTok (gflopsSearch l0) with
      | error e => rw [hg] at hparse; cases hparse
      | ok g =>
        rw [hg] at hparse
        cases hrec : goLines ls with
        | error e => rw [hrec] at hparse; cases hparse
        | ok p =>
          rw [hrec] at hparse
          obtain ⟨mf0, gf0⟩ := p
          have hmf : m.toList ++ mf0 = mf ∧ g.toList ++ gf0 = gf := by
            have := (Except.ok.injEq _ _ ▸ hparse)
            exact ⟨congrArg Prod.fst this, congrArg Prod.snd this⟩
          rcases List.mem_cons.mp hl with rfl | hl
          · rw [hline] at hm
            have hmq : m = some q := (Except.ok.injEq _ _ ▸ hm).symm
            rw [← hmf.1, hmq]
            exact List.mem_cons_self q mf0
          · rw [← hmf.1]
            exact List.mem_append_right _ (ih mf0 gf0 hl hrec)

/-- C9 (amended).  For every captured text and every line of it of the form
`pre + "MFLOPS: 1234.5" + post`, where the leading text holds no `MFLOPS:`
tag of its own and the trailing text does not begin with a digit or dot, and
where the parse of the whole text completes, the line's MFLOPS search
captures exactly `1234.5` and `1234.5` appears among the MFLOPS samples. -/
theorem mflops_line_parsed (pre post : List Char)
    (h1 : occursIn mflTag pre = false)
    (h2 : post.takeWhile isDigitDot = [])
    (t : List Char) (mf gf : List ℚ)
    (hline : (pre ++ str ("MFLOPS: 1234.5") ++ post) ∈ splitLines t)
    (hok : parseRun t = Except.ok (mf, gf)) :
    mflopsSearch (pre ++ str ("MFLOPS: 1234.5") ++ post) = some (str ("1234.5")) ∧
    (2469/2 : ℚ) ∈ mf := by
  have hsearch : mflopsSearch (pre ++ str ("MFLOPS: 1234.5") ++ post) =
      some (str ("1234.5")) := by
    have hre : pre ++ str ("MFLOPS: 1234.5") ++ post =
        pre ++ mflTag ++ (str (" 1234.5") ++ post) := by
      simp [mflTag, str, List.append_assoc]
    rw [hre, mflopsSearch_skip (str (" 1234.5") ++ post) pre h1,
      mflopsSearch_hit post h2]
  refine ⟨hsearch, goLines_mem (pre ++ str ("MFLOPS: 1234.5") ++ post) (2469/2)
    ?_ (splitLines t) mf gf hline hok⟩
  rw [hsearch]
  decide

/-- Witness for `mflops_line_parsed` at the bare line `MFLOPS: 1234.5`. -/
theorem mflops_line_parsed_witness :
    mflopsSearch ([] ++ str ("MFLOPS: 1234.5") ++ []) = some (str ("1234.5")) ∧
    (2469/2 : ℚ) ∈ ([2469/2] : List ℚ) :=
  mflops_line_parsed [] [] (by decide) (by decide) (str ("MFLOPS: 1234.5"))
    [2469/2] [] (by decide) (by decide)

/-- C9 counterexample.  The single-line text `MFLOPS: 1234.55` contains
`MFLOPS: 1234.5` on a line, yet parsing appends `1234.55` — the trailing
character extends the captured number — so `1234.5` is not among the MFLOPS
samples: trailing text on the line does affect the parsed value. -/
theorem mflops_substring_not_sampled :
    occursIn (str ("MFLOPS: 1234.5")) (str ("MFLOPS: 1234.55")) = true ∧
    parseRun (str ("MFLOPS: 1234.55")) = Except.ok ([24691/20], []) ∧
    ¬ (2469/2 : ℚ) ∈ ([24691/20] : List ℚ) := by
  decide

end BenchRunner
